import Mathlib

/-!
# SimFoundationConstruction: the Win32 window wrapper and its message pump

A shallow embedding of `src/platform/Win32Window.{h,cpp}` and `src/app/main.cpp`.

The program is a thin layer over the Win32 API, which is not part of the repository.
The host is modelled as follows.

* `Host` collects the values the operating system hands back (module handle, cursor,
  class atom, adjusted rectangle, created window handle, result of the default window
  procedure).  The general theorems hold for an arbitrary `Host`.
* `OS` is the state the program can observe: the calling thread's queue of posted
  messages (oldest first), the chronological log of API calls the program has made, and
  the batches of messages that will be posted to the thread while it sleeps.
* Only posted (queued) messages are modelled.  `PostQuitMessage` appends a `WM_QUIT`
  message to the queue, and `DefWindowProcW` has no effect on the queue.
* The only window class the program registers uses `Win32Window::WndProc`, so
  `DispatchMessageW` delivers every message to `WndProc`.
-/

namespace SimFoundation

set_option linter.unusedVariables false

/-! ## Win32 types and constants (from `<windows.h>`) -/

abbrev HINSTANCE := Nat
abbrev HWND := Nat
abbrev HMENU := Nat
abbrev HCURSOR := Nat
abbrev ATOM := Nat
abbrev UINT := Nat
abbrev DWORD := Nat
abbrev WPARAM := Nat
abbrev LPARAM := Int
abbrev LRESULT := Int

/-- The null handle / null pointer. -/
def nullptr : Nat := 0

def WM_DESTROY : UINT := 0x0002
def WM_QUIT : UINT := 0x0012
def WS_OVERLAPPEDWINDOW : DWORD := 0x00CF0000
def SW_SHOW : Int := 5
def IDC_ARROW : Nat := 32512
def PM_REMOVE : UINT := 0x0001
/-- The value of `CW_USEDEFAULT` is `(int)0x80000000`. -/
def CW_USEDEFAULT : Int := -2147483648

/-- Two's-complement wrap-around of 32-bit `int` arithmetic. -/
def toInt32 (x : Int) : Int := (x + 2147483648) % 4294967296 - 2147483648

structure MSG where
  hwnd : HWND
  message : UINT
  wParam : WPARAM
  lParam : LPARAM
deriving DecidableEq, Repr

structure RECT where
  left : Int
  top : Int
  right : Int
  bottom : Int
deriving DecidableEq, Repr

/-- Window procedures a class can name; the program only has `Win32Window::WndProc`. -/
inductive WNDPROC where
  | null
  | Win32Window_WndProc
deriving DecidableEq, Repr

/-- The fields of `WNDCLASSW` the constructor sets; all others stay zero (`wc{}`). -/
structure WNDCLASSW where
  lpfnWndProc : WNDPROC
  hInstance : HINSTANCE
  lpszClassName : String
  hCursor : HCURSOR
deriving DecidableEq, Repr

/-- One call across the API boundary, with its arguments. -/
inductive OsCall where
  | GetModuleHandleW (lpModuleName : Nat)
  | LoadCursorW (hInstance : HINSTANCE) (lpCursorName : Nat)
  | RegisterClassW (wc : WNDCLASSW)
  | AdjustWindowRect (r : RECT) (dwStyle : DWORD) (bMenu : Bool)
  | CreateWindowExW (dwExStyle : DWORD) (lpClassName lpWindowName : String) (dwStyle : DWORD)
      (x y nWidth nHeight : Int) (hWndParent : HWND) (hMenu : HMENU) (hInstance : HINSTANCE)
      (lpParam : Nat)
  | ShowWindow (hWnd : HWND) (nCmdShow : Int)
  | DestroyWindow (hWnd : HWND)
  | PeekMessageW (retrieved : Option MSG)
  | TranslateMessage (msg : MSG)
  | DispatchMessageW (msg : MSG)
  | PostQuitMessage (nExitCode : Int)
  | DefWindowProcW (hWnd : HWND) (msg : UINT) (wParam : WPARAM) (lParam : LPARAM)
  | Sleep (dwMilliseconds : Nat)
deriving DecidableEq, Repr

/-- What the operating system answers; arbitrary throughout. -/
structure Host where
  moduleHandle : Nat → HINSTANCE
  cursor : HINSTANCE → Nat → HCURSOR
  classAtom : WNDCLASSW → ATOM
  adjustedRect : RECT → DWORD → Bool → RECT
  createdWindow : DWORD → String → String → DWORD → Int → Int → Int → Int →
    HWND → HMENU → HINSTANCE → Nat → HWND
  defaultResult : HWND → UINT → WPARAM → LPARAM → LRESULT

/-- Observable state of the host for the calling thread. -/
structure OS where
  queue : List MSG
  log : List OsCall
  arrivals : List (List MSG)
deriving DecidableEq, Repr

def OS.record (os : OS) (c : OsCall) : OS :=
  { os with log := os.log ++ [c] }

/-! ## The API calls the program makes -/

def GetModuleHandleW (host : Host) (lpModuleName : Nat) (os : OS) : HINSTANCE × OS :=
  (host.moduleHandle lpModuleName, os.record (.GetModuleHandleW lpModuleName))

def LoadCursor (host : Host) (hInstance : HINSTANCE) (lpCursorName : Nat) (os : OS) :
    HCURSOR × OS :=
  (host.cursor hInstance lpCursorName, os.record (.LoadCursorW hInstance lpCursorName))

def RegisterClassW (host : Host) (wc : WNDCLASSW) (os : OS) : ATOM × OS :=
  (host.classAtom wc, os.record (.RegisterClassW wc))

/-- The rectangle is updated in place; the `BOOL` result is not modelled (it is unused). -/
def AdjustWindowRect (host : Host) (r : RECT) (dwStyle : DWORD) (bMenu : Bool) (os : OS) :
    RECT × OS :=
  (host.adjustedRect r dwStyle bMenu, os.record (.AdjustWindowRect r dwStyle bMenu))

def CreateWindowExW (host : Host) (dwExStyle : DWORD) (lpClassName lpWindowName : String)
    (dwStyle : DWORD) (x y nWidth nHeight : Int) (hWndParent : HWND) (hMenu : HMENU)
    (hInstance : HINSTANCE) (lpParam : Nat) (os : OS) : HWND × OS :=
  (host.createdWindow dwExStyle lpClassName lpWindowName dwStyle x y nWidth nHeight
      hWndParent hMenu hInstance lpParam,
    os.record (.CreateWindowExW dwExStyle lpClassName lpWindowName dwStyle x y nWidth nHeight
      hWndParent hMenu hInstance lpParam))

def ShowWindow (hWnd : HWND) (nCmdShow : Int) (os : OS) : OS :=
  os.record (.ShowWindow hWnd nCmdShow)

def DestroyWindow (hWnd : HWND) (os : OS) : OS :=
  os.record (.DestroyWindow hWnd)

/-- The call `PeekMessageW(&msg, nullptr, 0, 0, PM_REMOVE)`: no window or id filter.  With an
empty queue it answers `FALSE` at once (`none`); otherwise the oldest message is removed from
the queue and handed back. -/
def PeekMessageW (os : OS) : Option MSG × OS :=
  match os.queue with
  | [] => (none, os.record (.PeekMessageW none))
  | m :: rest => (some m, { os with queue := rest, log := os.log ++ [.PeekMessageW (some m)] })

def TranslateMessage (msg : MSG) (os : OS) : OS :=
  os.record (.TranslateMessage msg)

/-- The termination message `PostQuitMessage(nExitCode)` places in the thread's queue; its
`wParam` is the exit code converted to the 64-bit unsigned `WPARAM`. -/
def quitMessage (nExitCode : Int) : MSG :=
  { hwnd := nullptr, message := WM_QUIT, wParam := (nExitCode % 18446744073709551616).toNat, lParam := 0 }

def PostQuitMessage (nExitCode : Int) (os : OS) : OS :=
  { os with queue := os.queue ++ [quitMessage nExitCode],
            log := os.log ++ [.PostQuitMessage nExitCode] }

def DefWindowProcW (host : Host) (hWnd : HWND) (msg : UINT) (wParam : WPARAM) (lParam : LPARAM)
    (os : OS) : LRESULT × OS :=
  (host.defaultResult hWnd msg wParam lParam, os.record (.DefWindowProcW hWnd msg wParam lParam))

/-- The thread is suspended for the given time; meanwhile the next batch of messages (if any)
is posted to its queue. -/
def Sleep (dwMilliseconds : Nat) (os : OS) : OS :=
  match os.arrivals with
  | [] => os.record (.Sleep dwMilliseconds)
  | batch :: later =>
    { queue := os.queue ++ batch, log := os.log ++ [.Sleep dwMilliseconds], arrivals := later }

/-! ## `src/platform/Win32Window.{h,cpp}` -/

def kClassName : String := "CMake1WindowClass"

structure Win32Window where
  m_hInstance : HINSTANCE
  m_hwnd : HWND
deriving DecidableEq, Repr

namespace Win32Window

/-- Accessor `HWND hwnd() const`, which returns `m_hwnd`. -/
def hwnd (self : Win32Window) : HWND := self.m_hwnd

/-- Source: `Win32Window::WndProc`, the window procedure of the registered class. -/
def WndProc (host : Host) (hwnd : HWND) (msg : UINT) (wparam : WPARAM) (lparam : LPARAM)
    (os : OS) : LRESULT × OS :=
  if msg = WM_DESTROY then
    (0, PostQuitMessage 0 os)
  else
    DefWindowProcW host hwnd msg wparam lparam os

end Win32Window

/-- The message is handed to the window procedure of its window, which for this program is
`Win32Window::WndProc`; the procedure's result is the result of the call. -/
def DispatchMessageW (host : Host) (msg : MSG) (os : OS) : LRESULT × OS :=
  Win32Window.WndProc host msg.hwnd msg.message msg.wParam msg.lParam
    (os.record (.DispatchMessageW msg))

namespace Win32Window

/-- Source: the constructor `Win32Window::Win32Window(HINSTANCE, int, int, const wchar_t*)`. -/
def construct (host : Host) (hInstance : HINSTANCE) (width height : Int) (title : String)
    (os : OS) : Win32Window × OS :=
  let m_hInstance := hInstance
  let (hCursor, os) := LoadCursor host nullptr IDC_ARROW os
  let wc : WNDCLASSW :=
    { lpfnWndProc := .Win32Window_WndProc, hInstance := m_hInstance,
      lpszClassName := kClassName, hCursor := hCursor }
  let (_, os) := RegisterClassW host wc os
  let style : DWORD := WS_OVERLAPPEDWINDOW
  let r : RECT := { left := 0, top := 0, right := width, bottom := height }
  let (r, os) := AdjustWindowRect host r style false os
  let (m_hwnd, os) := CreateWindowExW host 0 kClassName title style CW_USEDEFAULT CW_USEDEFAULT
    (toInt32 (r.right - r.left)) (toInt32 (r.bottom - r.top)) nullptr nullptr m_hInstance
    nullptr os
  let os := ShowWindow m_hwnd SW_SHOW os
  ({ m_hInstance := m_hInstance, m_hwnd := m_hwnd }, os)

/-- Source: the destructor `Win32Window::~Win32Window()`. -/
def destruct (self : Win32Window) (os : OS) : OS :=
  if self.m_hwnd ≠ nullptr then DestroyWindow self.m_hwnd os else os

/-- Messages in the queue other than `WM_QUIT`: the work a drain still has in front of it. -/
def pendingWork (os : OS) : Nat :=
  (os.queue.filter (fun m => decide (m.message ≠ WM_QUIT))).length

/-- Source: `bool Win32Window::PumpMessages()`; the loop is the recursion, which ends because
every turn that goes on removes a message other than `WM_QUIT` from the queue. -/
def PumpMessages (host : Host) (self : Win32Window) (os : OS) : Bool × OS :=
  match hpeek : PeekMessageW os with
  | (none, os1) => (true, os1)
  | (some msg, os1) =>
    if hmsg : msg.message = WM_QUIT then
      (false, os1)
    else
      let os2 := TranslateMessage msg os1
      let os3 := (DispatchMessageW host msg os2).2
      PumpMessages host self os3
termination_by pendingWork os
decreasing_by
  obtain ⟨queue, log, arrivals⟩ := os
  cases queue with
  | nil => simp [PeekMessageW] at hpeek
  | cons m rest =>
    simp only [PeekMessageW, Prod.mk.injEq, Option.some.injEq] at hpeek
    obtain ⟨rfl, rfl⟩ := hpeek
    have hdq : ¬ WM_DESTROY = WM_QUIT := by decide
    by_cases hd : m.message = WM_DESTROY
    · simp [pendingWork, DispatchMessageW, WndProc, TranslateMessage, OS.record, PostQuitMessage,
        quitMessage, hd, hdq, List.filter_cons]
    · simp [pendingWork, DispatchMessageW, WndProc, TranslateMessage, OS.record, DefWindowProcW,
        hd, hmsg, List.filter_cons]

end Win32Window

/-! ## `src/app/main.cpp` -/

/-- The loop `while (window.PumpMessages()) { Sleep(16); }` of `main`, run for at most `fuel`
calls of `PumpMessages`; `none` when the loop is still running after that many calls. -/
def main.loop (host : Host) (window : Win32Window) : Nat → OS → Option OS
  | 0, _ => none
  | fuel + 1, os =>
    match window.PumpMessages host os with
    | (false, os1) => some os1
    | (true, os1) => main.loop host window fuel (Sleep 16 os1)

/-- Source: `int main()`. The result is the exit status and the final host state; `window`
is destroyed on return. `none` when the loop is still running after `fuel` turns. -/
def main (host : Host) (fuel : Nat) (os : OS) : Option (Int × OS) :=
  let (hInstance, os) := GetModuleHandleW host nullptr os
  let (window, os) := Win32Window.construct host hInstance 800 600 "Hello, Windows" os
  match main.loop host window fuel os with
  | none => none
  | some os => some (0, window.destruct os)

/-! ## Specification-side vocabulary -/

/-- The API calls made during one `PumpMessages` call started in state `os`: what the call
added to the log. -/
def Win32Window.pumpCalls (host : Host) (self : Win32Window) (os : OS) : List OsCall :=
  (self.PumpMessages host os).2.log.drop os.log.length

/-- The calls one loop iteration makes for a message that `WndProc` forwards to the default
window procedure. -/
def forwardedCalls (m : MSG) : List OsCall :=
  [.PeekMessageW (some m), .TranslateMessage m, .DispatchMessageW m,
    .DefWindowProcW m.hwnd m.message m.wParam m.lParam]

/-- The calls one loop iteration makes for a `WM_DESTROY` message. -/
def destroyCalls (m : MSG) : List OsCall :=
  [.PeekMessageW (some m), .TranslateMessage m, .DispatchMessageW m, .PostQuitMessage 0]

def isPeek : OsCall → Bool
  | .PeekMessageW _ => true
  | _ => false

def isPostQuit : OsCall → Bool
  | .PostQuitMessage _ => true
  | _ => false

def isSleep : OsCall → Bool
  | .Sleep _ => true
  | _ => false

/-- The messages handed to `DispatchMessageW`, in call order. -/
def dispatched : List OsCall → List MSG
  | [] => []
  | .DispatchMessageW m :: cs => m :: dispatched cs
  | _ :: cs => dispatched cs

/-- The calls one loop iteration makes for a message other than `WM_QUIT`. -/
def handledCalls (m : MSG) : List OsCall :=
  if m.message = WM_DESTROY then destroyCalls m else forwardedCalls m

/-- The pending messages in front of the first pending `WM_QUIT` (all of them when none is
pending). -/
def drainedMessages (queue : List MSG) : List MSG :=
  queue.takeWhile (fun m => decide (m.message ≠ WM_QUIT))

/-- What is in the queue once the messages of `drainedMessages` have been handled: the pending
messages from the first pending `WM_QUIT` on, followed by one posted `WM_QUIT` for every
`WM_DESTROY` that was handled. -/
def leftAfterDrain (queue : List MSG) : List MSG :=
  queue.dropWhile (fun m => decide (m.message ≠ WM_QUIT))
    ++ List.replicate ((drainedMessages queue).countP (fun m => decide (m.message = WM_DESTROY)))
        (quitMessage 0)

/-- The name of the API function a logged call went to. -/
def OsCall.name : OsCall → String
  | .GetModuleHandleW _ => "GetModuleHandleW"
  | .LoadCursorW _ _ => "LoadCursorW"
  | .RegisterClassW _ => "RegisterClassW"
  | .AdjustWindowRect _ _ _ => "AdjustWindowRect"
  | .CreateWindowExW _ _ _ _ _ _ _ _ _ _ _ _ => "CreateWindowExW"
  | .ShowWindow _ _ => "ShowWindow"
  | .DestroyWindow _ => "DestroyWindow"
  | .PeekMessageW _ => "PeekMessageW"
  | .TranslateMessage _ => "TranslateMessage"
  | .DispatchMessageW _ => "DispatchMessageW"
  | .PostQuitMessage _ => "PostQuitMessage"
  | .DefWindowProcW _ _ _ _ => "DefWindowProcW"
  | .Sleep _ => "Sleep"

/-- The handle `CreateWindowExW` hands back for the one call the constructor makes. -/
def createdHandle (host : Host) (hInstance : HINSTANCE) (width height : Int) (title : String) :
    HWND :=
  host.createdWindow 0 kClassName title WS_OVERLAPPEDWINDOW CW_USEDEFAULT CW_USEDEFAULT
    (toInt32 ((host.adjustedRect ⟨0, 0, width, height⟩ WS_OVERLAPPEDWINDOW false).right
      - (host.adjustedRect ⟨0, 0, width, height⟩ WS_OVERLAPPEDWINDOW false).left))
    (toInt32 ((host.adjustedRect ⟨0, 0, width, height⟩ WS_OVERLAPPEDWINDOW false).bottom
      - (host.adjustedRect ⟨0, 0, width, height⟩ WS_OVERLAPPEDWINDOW false).top))
    nullptr nullptr hInstance nullptr

/-- The class description the constructor registers. -/
def registeredClass (host : Host) (hInstance : HINSTANCE) : WNDCLASSW :=
  { lpfnWndProc := .Win32Window_WndProc, hInstance := hInstance, lpszClassName := kClassName,
    hCursor := host.cursor nullptr IDC_ARROW }

/-- The calls the constructor makes, in order, for the given arguments. -/
def constructCalls (host : Host) (hInstance : HINSTANCE) (width height : Int) (title : String) :
    List OsCall :=
  [.LoadCursorW nullptr IDC_ARROW,
    .RegisterClassW (registeredClass host hInstance),
    .AdjustWindowRect ⟨0, 0, width, height⟩ WS_OVERLAPPEDWINDOW false,
    .CreateWindowExW 0 kClassName title WS_OVERLAPPEDWINDOW CW_USEDEFAULT CW_USEDEFAULT
      (toInt32 ((host.adjustedRect ⟨0, 0, width, height⟩ WS_OVERLAPPEDWINDOW false).right
        - (host.adjustedRect ⟨0, 0, width, height⟩ WS_OVERLAPPEDWINDOW false).left))
      (toInt32 ((host.adjustedRect ⟨0, 0, width, height⟩ WS_OVERLAPPEDWINDOW false).bottom
        - (host.adjustedRect ⟨0, 0, width, height⟩ WS_OVERLAPPEDWINDOW false).top))
      nullptr nullptr hInstance nullptr,
    .ShowWindow (createdHandle host hInstance width height title) SW_SHOW]

/-- The window and the host state with which `main` enters its loop: after
`GetModuleHandleW(nullptr)` and the construction of `window`. -/
def entryState (host : Host) (os : OS) : Win32Window × OS :=
  Win32Window.construct host (GetModuleHandleW host nullptr os).1 800 600 "Hello, Windows"
    (GetModuleHandleW host nullptr os).2

/-- A host used for concrete runs: module handle 1, cursor 2, class atom 3, a 16x39 window
frame, window handle 7, default window procedure result 0. -/
def demoHost : Host :=
  { moduleHandle := fun _ => 1
    cursor := fun _ _ => 2
    classAtom := fun _ => 3
    adjustedRect := fun r _ _ =>
      { left := r.left - 8, top := r.top - 31, right := r.right + 8, bottom := r.bottom + 8 }
    createdWindow := fun _ _ _ _ _ _ _ _ _ _ _ _ => 7
    defaultResult := fun _ _ _ _ => 0 }

/-- A host on which class registration and window creation both fail. -/
def failingHost : Host :=
  { demoHost with classAtom := fun _ => 0, createdWindow := fun _ _ _ _ _ _ _ _ _ _ _ _ => 0 }

/-- An ordinary message (`WM_PAINT`, id 15) for window 7. -/
def paintMsg : MSG := { hwnd := 7, message := 0x000F, wParam := 0, lParam := 0 }

/-- A second ordinary message (`WM_SIZE`, id 5) for window 7. -/
def sizeMsg : MSG := { hwnd := 7, message := 0x0005, wParam := 0, lParam := 0 }

/-- The message `WM_DESTROY` for window 7. -/
def destroyMsg : MSG := { hwnd := 7, message := WM_DESTROY, wParam := 0, lParam := 0 }

/-! ## Unfolding `PumpMessages` -/

namespace Win32Window

theorem PumpMessages_nil (host : Host) (self : Win32Window) (log : List OsCall)
    (arrivals : List (List MSG)) :
    self.PumpMessages host ⟨[], log, arrivals⟩
      = (true, ⟨[], log ++ [.PeekMessageW none], arrivals⟩) := by
  rw [PumpMessages]
  split
  · next os1 h =>
    simp only [PeekMessageW, OS.record, Prod.mk.injEq, true_and] at h
    simp [← h]
  · next msg os1 h => simp [PeekMessageW] at h

theorem PumpMessages_quit (host : Host) (self : Win32Window) (m : MSG) (rest : List MSG)
    (log : List OsCall) (arrivals : List (List MSG)) (hm : m.message = WM_QUIT) :
    self.PumpMessages host ⟨m :: rest, log, arrivals⟩
      = (false, ⟨rest, log ++ [.PeekMessageW (some m)], arrivals⟩) := by
  rw [PumpMessages]
  split
  · next os1 h => simp [PeekMessageW] at h
  · next msg os1 h =>
    simp only [PeekMessageW, Prod.mk.injEq, Option.some.injEq] at h
    obtain ⟨rfl, rfl⟩ := h
    simp [hm]

theorem PumpMessages_destroy (host : Host) (self : Win32Window) (m : MSG) (rest : List MSG)
    (log : List OsCall) (arrivals : List (List MSG)) (hm : m.message = WM_DESTROY) :
    self.PumpMessages host ⟨m :: rest, log, arrivals⟩
      = self.PumpMessages host ⟨rest ++ [quitMessage 0], log ++ destroyCalls m, arrivals⟩ := by
  have hdq : ¬ WM_DESTROY = WM_QUIT := by decide
  rw [PumpMessages]
  split
  · next os1 h => simp [PeekMessageW] at h
  · next msg os1 h =>
    simp only [PeekMessageW, Prod.mk.injEq, Option.some.injEq] at h
    obtain ⟨rfl, rfl⟩ := h
    simp [hdq, hm, DispatchMessageW, WndProc, TranslateMessage, OS.record, PostQuitMessage,
      destroyCalls]

theorem PumpMessages_forward (host : Host) (self : Win32Window) (m : MSG) (rest : List MSG)
    (log : List OsCall) (arrivals : List (List MSG)) (hq : m.message ≠ WM_QUIT)
    (hd : m.message ≠ WM_DESTROY) :
    self.PumpMessages host ⟨m :: rest, log, arrivals⟩
      = self.PumpMessages host ⟨rest, log ++ forwardedCalls m, arrivals⟩ := by
  rw [PumpMessages]
  split
  · next os1 h => simp [PeekMessageW] at h
  · next msg os1 h =>
    simp only [PeekMessageW, Prod.mk.injEq, Option.some.injEq] at h
    obtain ⟨rfl, rfl⟩ := h
    simp [hq, hd, DispatchMessageW, WndProc, TranslateMessage, OS.record, DefWindowProcW,
      forwardedCalls]

/-- Induction along the iterations of the `PumpMessages` loop. -/
theorem pump_induction (P : OS → Prop)
    (hnil : ∀ log arrivals, P ⟨[], log, arrivals⟩)
    (hquit : ∀ m rest log arrivals, m.message = WM_QUIT → P ⟨m :: rest, log, arrivals⟩)
    (hdestroy : ∀ m rest log arrivals, m.message = WM_DESTROY →
      P ⟨rest ++ [quitMessage 0], log ++ destroyCalls m, arrivals⟩ → P ⟨m :: rest, log, arrivals⟩)
    (hforward : ∀ m rest log arrivals, m.message ≠ WM_QUIT → m.message ≠ WM_DESTROY →
      P ⟨rest, log ++ forwardedCalls m, arrivals⟩ → P ⟨m :: rest, log, arrivals⟩) :
    ∀ os, P os := by
  have key : ∀ n, ∀ os, pendingWork os = n → P os := by
    intro n
    induction n using Nat.strong_induction_on with
    | _ n ih =>
      rintro ⟨queue, log, arrivals⟩ hn
      cases queue with
      | nil => exact hnil log arrivals
      | cons m rest =>
        by_cases hq : m.message = WM_QUIT
        · exact hquit m rest log arrivals hq
        · by_cases hd : m.message = WM_DESTROY
          · refine hdestroy m rest log arrivals hd (ih _ ?_ _ rfl)
            rw [← hn]
            simp [pendingWork, List.filter_cons, hq, quitMessage]
          · refine hforward m rest log arrivals hq hd (ih _ ?_ _ rfl)
            rw [← hn]
            simp [pendingWork, List.filter_cons, hq]
  exact fun os => key _ os rfl

/-- A `PumpMessages` call only appends to the log. -/
theorem PumpMessages_log (host : Host) (self : Win32Window) (os : OS) :
    (self.PumpMessages host os).2.log = os.log ++ self.pumpCalls host os := by
  have h : ∃ es, (self.PumpMessages host os).2.log = os.log ++ es := by
    induction os using pump_induction with
    | hnil log arrivals => exact ⟨_, by rw [PumpMessages_nil]⟩
    | hquit m rest log arrivals hm => exact ⟨_, by rw [PumpMessages_quit _ _ _ _ _ _ hm]⟩
    | hdestroy m rest log arrivals hm ih =>
      obtain ⟨es, hes⟩ := ih
      exact ⟨destroyCalls m ++ es, by
        rw [PumpMessages_destroy _ _ _ _ _ _ hm, hes]; simp⟩
    | hforward m rest log arrivals hq hd ih =>
      obtain ⟨es, hes⟩ := ih
      exact ⟨forwardedCalls m ++ es, by
        rw [PumpMessages_forward _ _ _ _ _ _ hq hd, hes]; simp⟩
  obtain ⟨es, hes⟩ := h
  simp [pumpCalls, hes]

theorem pumpCalls_nil (host : Host) (self : Win32Window) (log : List OsCall)
    (arrivals : List (List MSG)) :
    self.pumpCalls host ⟨[], log, arrivals⟩ = [.PeekMessageW none] := by
  simp [pumpCalls, PumpMessages_nil]

theorem pumpCalls_quit (host : Host) (self : Win32Window) (m : MSG) (rest : List MSG)
    (log : List OsCall) (arrivals : List (List MSG)) (hm : m.message = WM_QUIT) :
    self.pumpCalls host ⟨m :: rest, log, arrivals⟩ = [.PeekMessageW (some m)] := by
  simp [pumpCalls, PumpMessages_quit _ _ _ _ _ _ hm]

theorem pumpCalls_destroy (host : Host) (self : Win32Window) (m : MSG) (rest : List MSG)
    (log : List OsCall) (arrivals : List (List MSG)) (hm : m.message = WM_DESTROY) :
    self.pumpCalls host ⟨m :: rest, log, arrivals⟩
      = destroyCalls m
        ++ self.pumpCalls host ⟨rest ++ [quitMessage 0], log ++ destroyCalls m, arrivals⟩ := by
  have h := PumpMessages_log host self ⟨rest ++ [quitMessage 0], log ++ destroyCalls m, arrivals⟩
  rw [pumpCalls, PumpMessages_destroy _ _ _ _ _ _ hm, h]
  simp

theorem pumpCalls_forward (host : Host) (self : Win32Window) (m : MSG) (rest : List MSG)
    (log : List OsCall) (arrivals : List (List MSG)) (hq : m.message ≠ WM_QUIT)
    (hd : m.message ≠ WM_DESTROY) :
    self.pumpCalls host ⟨m :: rest, log, arrivals⟩
      = forwardedCalls m ++ self.pumpCalls host ⟨rest, log ++ forwardedCalls m, arrivals⟩ := by
  have h := PumpMessages_log host self ⟨rest, log ++ forwardedCalls m, arrivals⟩
  rw [pumpCalls, PumpMessages_forward _ _ _ _ _ _ hq hd, h]
  simp

theorem dispatched_append (xs ys : List OsCall) :
    dispatched (xs ++ ys) = dispatched xs ++ dispatched ys := by
  induction xs with
  | nil => rfl
  | cons c cs ih => cases c <;> simp [dispatched, ih]

/-- A `PumpMessages` call never sleeps. -/
theorem pumpCalls_no_sleep (host : Host) (self : Win32Window) (os : OS) :
    ∀ c ∈ self.pumpCalls host os, isSleep c = false := by
  induction os using pump_induction with
  | hnil log arrivals => simp [pumpCalls_nil, isSleep]
  | hquit m rest log arrivals hm => simp [pumpCalls_quit _ _ _ _ _ _ hm, isSleep]
  | hdestroy m rest log arrivals hm ih =>
    rw [pumpCalls_destroy _ _ _ _ _ _ hm]
    intro c hc
    rcases List.mem_append.1 hc with h | h
    · simp only [destroyCalls, List.mem_cons, List.mem_singleton, List.not_mem_nil,
        or_false] at h
      rcases h with rfl | rfl | rfl | rfl <;> rfl
    · exact ih c h
  | hforward m rest log arrivals hq hd ih =>
    rw [pumpCalls_forward _ _ _ _ _ _ hq hd]
    intro c hc
    rcases List.mem_append.1 hc with h | h
    · simp only [forwardedCalls, List.mem_cons, List.mem_singleton, List.not_mem_nil,
        or_false] at h
      rcases h with rfl | rfl | rfl | rfl <;> rfl
    · exact ih c h

theorem dispatched_handled (pre : List MSG) :
    dispatched (pre.flatMap handledCalls) = pre := by
  induction pre with
  | nil => rfl
  | cons m ms ih =>
    rw [List.flatMap_cons, dispatched_append, ih]
    by_cases hd : m.message = WM_DESTROY <;>
      simp [handledCalls, hd, destroyCalls, forwardedCalls, dispatched]

/-- Handling the messages in front of the rest of the queue: each is retrieved, translated and
dispatched in turn, and every `WM_DESTROY` among them appends one `WM_QUIT` to the queue. -/
theorem pump_drain (host : Host) (self : Win32Window) (arrivals : List (List MSG)) :
    ∀ (pre rest : List MSG) (log : List OsCall), (∀ m ∈ pre, m.message ≠ WM_QUIT) →
      self.PumpMessages host ⟨pre ++ rest, log, arrivals⟩
        = self.PumpMessages host
            ⟨rest ++ List.replicate (pre.countP (fun m => decide (m.message = WM_DESTROY)))
                (quitMessage 0),
              log ++ pre.flatMap handledCalls, arrivals⟩ := by
  intro pre
  induction pre with
  | nil => intro rest log _; simp
  | cons m ms ih =>
    intro rest log hms
    have hm := hms m (List.mem_cons_self _ _)
    have hrest : ∀ x ∈ ms, x.message ≠ WM_QUIT := fun x hx => hms x (List.mem_cons_of_mem _ hx)
    by_cases hd : m.message = WM_DESTROY
    · have := ih (rest ++ [quitMessage 0]) (log ++ destroyCalls m) hrest
      simp only [List.cons_append]
      rw [PumpMessages_destroy _ _ _ _ _ _ hd, List.append_assoc ms rest, this]
      simp [List.countP_cons, hd, handledCalls, List.replicate_succ, List.flatMap_cons]
    · have := ih rest (log ++ forwardedCalls m) hrest
      simp only [List.cons_append]
      rw [PumpMessages_forward _ _ _ _ _ _ hm hd, this]
      simp [List.countP_cons, hd, handledCalls, List.flatMap_cons]

theorem leftAfterDrain_head (queue : List MSG) (q : MSG) (left : List MSG)
    (h : leftAfterDrain queue = q :: left) : q.message = WM_QUIT := by
  unfold leftAfterDrain at h
  cases hdw : queue.dropWhile (fun m => decide (m.message ≠ WM_QUIT)) with
  | nil =>
    rw [hdw, List.nil_append] at h
    have hmem : q ∈ List.replicate
        ((drainedMessages queue).countP (fun m => decide (m.message = WM_DESTROY)))
        (quitMessage 0) := by rw [h]; exact List.mem_cons_self _ _
    rw [List.eq_of_mem_replicate hmem]
    rfl
  | cons x xs =>
    rw [hdw, List.cons_append] at h
    have hx : x = q := (List.cons.inj h).1
    have hne : queue.dropWhile (fun m => decide (m.message ≠ WM_QUIT)) ≠ [] := by
      rw [hdw]; exact List.cons_ne_nil _ _
    have hnot := List.head_dropWhile_not (fun m => decide (m.message ≠ WM_QUIT)) queue hne
    simp only [hdw, List.head_cons] at hnot
    rw [← hx]
    simpa using hnot

/-- The call in closed form: the messages in front of the first pending `WM_QUIT` are handled
in order; then the next message, if any, is a `WM_QUIT`, whose retrieval ends the call with
`false`; with nothing left the call ends with `true`. -/
theorem PumpMessages_closed (host : Host) (self : Win32Window) (os : OS) :
    self.PumpMessages host os
      = (match leftAfterDrain os.queue with
        | [] =>
          (true, ⟨[], os.log ++ (drainedMessages os.queue).flatMap handledCalls
            ++ [.PeekMessageW none], os.arrivals⟩)
        | q :: left =>
          (false, ⟨left, os.log ++ (drainedMessages os.queue).flatMap handledCalls
            ++ [.PeekMessageW (some q)], os.arrivals⟩)) := by
  obtain ⟨queue, log, arrivals⟩ := os
  have hsplit : queue = drainedMessages queue
      ++ queue.dropWhile (fun m => decide (m.message ≠ WM_QUIT)) :=
    (List.takeWhile_append_dropWhile _ queue).symm
  have hpre : ∀ m ∈ drainedMessages queue, m.message ≠ WM_QUIT := by
    intro m hm
    have := List.mem_takeWhile_imp hm
    simpa using this
  have hstep := pump_drain host self arrivals (drainedMessages queue)
    (queue.dropWhile (fun m => decide (m.message ≠ WM_QUIT))) log hpre
  rw [← hsplit] at hstep
  rw [hstep]
  show self.PumpMessages host ⟨leftAfterDrain queue, _, arrivals⟩ = _
  cases hleft : leftAfterDrain queue with
  | nil => exact PumpMessages_nil _ _ _ _
  | cons q left => exact PumpMessages_quit _ _ _ _ _ _ (leftAfterDrain_head queue q left hleft)

theorem PumpMessages_false_iff_pending (host : Host) (self : Win32Window) (os : OS) :
    (self.PumpMessages host os).1 = false
      ↔ ∃ m ∈ os.queue, m.message = WM_QUIT ∨ m.message = WM_DESTROY := by
  induction os using pump_induction with
  | hnil log arrivals => simp [PumpMessages_nil]
  | hquit m rest log arrivals hm => simp [PumpMessages_quit _ _ _ _ _ _ hm, hm]
  | hdestroy m rest log arrivals hm ih =>
    rw [PumpMessages_destroy _ _ _ _ _ _ hm]
    have hfalse : (self.PumpMessages host
        ⟨rest ++ [quitMessage 0], log ++ destroyCalls m, arrivals⟩).1 = false :=
      ih.2 ⟨quitMessage 0, by simp, Or.inl rfl⟩
    simp only [hfalse, true_iff]
    exact ⟨m, List.mem_cons_self _ _, Or.inr hm⟩
  | hforward m rest log arrivals hq hd ih =>
    rw [PumpMessages_forward _ _ _ _ _ _ hq hd, ih]
    simp [hq, hd]

theorem PumpMessages_false_iff (host : Host) (self : Win32Window) (os : OS) :
    (self.PumpMessages host os).1 = false
      ↔ ∃ q : MSG, q.message = WM_QUIT ∧ OsCall.PeekMessageW (some q) ∈ self.pumpCalls host os := by
  induction os using pump_induction with
  | hnil log arrivals => simp [PumpMessages_nil, pumpCalls_nil]
  | hquit m rest log arrivals hm =>
    simp [PumpMessages_quit _ _ _ _ _ _ hm, pumpCalls_quit _ _ _ _ _ _ hm, hm]
  | hdestroy m rest log arrivals hm ih =>
    have hdq : ¬ WM_DESTROY = WM_QUIT := by decide
    rw [PumpMessages_destroy _ _ _ _ _ _ hm, pumpCalls_destroy _ _ _ _ _ _ hm, ih]
    constructor
    · rintro ⟨q, hq, hmem⟩
      exact ⟨q, hq, List.mem_append_right _ hmem⟩
    · rintro ⟨q, hq, hmem⟩
      rcases List.mem_append.1 hmem with h | h
      · simp only [destroyCalls, List.mem_cons, OsCall.PeekMessageW.injEq, Option.some.injEq,
          List.mem_singleton, reduceCtorEq, or_false, List.not_mem_nil] at h
        subst h
        rw [hm] at hq
        exact absurd hq hdq
      · exact ⟨q, hq, h⟩
  | hforward m rest log arrivals hq0 hd ih =>
    rw [PumpMessages_forward _ _ _ _ _ _ hq0 hd, pumpCalls_forward _ _ _ _ _ _ hq0 hd, ih]
    constructor
    · rintro ⟨q, hq, hmem⟩
      exact ⟨q, hq, List.mem_append_right _ hmem⟩
    · rintro ⟨q, hq, hmem⟩
      rcases List.mem_append.1 hmem with h | h
      · simp only [forwardedCalls, List.mem_cons, OsCall.PeekMessageW.injEq, Option.some.injEq,
          List.mem_singleton, reduceCtorEq, or_false, List.not_mem_nil] at h
        subst h
        exact absurd hq hq0
      · exact ⟨q, hq, h⟩

theorem PumpMessages_true_queue (host : Host) (self : Win32Window) (os : OS) :
    (self.PumpMessages host os).1 = true → (self.PumpMessages host os).2.queue = [] := by
  induction os using pump_induction with
  | hnil log arrivals => simp [PumpMessages_nil]
  | hquit m rest log arrivals hm => simp [PumpMessages_quit _ _ _ _ _ _ hm]
  | hdestroy m rest log arrivals hm ih => rw [PumpMessages_destroy _ _ _ _ _ _ hm]; exact ih
  | hforward m rest log arrivals hq hd ih => rw [PumpMessages_forward _ _ _ _ _ _ hq hd]; exact ih

/-- C1: for every state of the pending queue, `PumpMessages` handles (retrieves, translates,
dispatches) exactly the pending messages in front of the first pending `WM_QUIT`, in order;
if a message is then left, pending or posted by `WndProc` during the call, it is a `WM_QUIT`,
the call retrieves it and returns `false`; otherwise the queue is drained to empty and the call
returns `true`. So the call returns `false` if and only if a `WM_QUIT` is retrieved during it,
which happens exactly when a `WM_QUIT` or a `WM_DESTROY` is pending, and `true` exactly when
the queue ends up empty with no `WM_QUIT` retrieved; on an empty queue it returns `true` after a
single retrieval attempt and dispatches nothing. -/
theorem PumpMessages_result (host : Host) (self : Win32Window) (os : OS) :
    self.PumpMessages host os
        = (match leftAfterDrain os.queue with
          | [] =>
            (true, ⟨[], os.log ++ (drainedMessages os.queue).flatMap handledCalls
              ++ [.PeekMessageW none], os.arrivals⟩)
          | q :: left =>
            (false, ⟨left, os.log ++ (drainedMessages os.queue).flatMap handledCalls
              ++ [.PeekMessageW (some q)], os.arrivals⟩))
    ∧ (∀ q left, leftAfterDrain os.queue = q :: left → q.message = WM_QUIT)
    ∧ dispatched (self.pumpCalls host os) = drainedMessages os.queue
    ∧ ((self.PumpMessages host os).1 = false
        ↔ ∃ m ∈ os.queue, m.message = WM_QUIT ∨ m.message = WM_DESTROY)
    ∧ (self.PumpMessages host os).2.log = os.log ++ self.pumpCalls host os
    ∧ ((self.PumpMessages host os).1 = false
        ↔ ∃ q : MSG, q.message = WM_QUIT
            ∧ OsCall.PeekMessageW (some q) ∈ self.pumpCalls host os)
    ∧ ((self.PumpMessages host os).1 = true
        ↔ (self.PumpMessages host os).2.queue = []
            ∧ ∀ q : MSG, q.message = WM_QUIT
                → OsCall.PeekMessageW (some q) ∉ self.pumpCalls host os)
    ∧ (os.queue = [] →
        (self.PumpMessages host os).1 = true
          ∧ self.pumpCalls host os = [.PeekMessageW none]
          ∧ dispatched (self.pumpCalls host os) = []) := by
  refine ⟨PumpMessages_closed host self os, leftAfterDrain_head os.queue, ?_,
    PumpMessages_false_iff_pending host self os, PumpMessages_log host self os,
    PumpMessages_false_iff host self os, ?_, ?_⟩
  · rw [pumpCalls, PumpMessages_closed]
    cases leftAfterDrain os.queue with
    | nil =>
      show dispatched (List.drop os.log.length (os.log ++ _ ++ [_])) = _
      rw [List.append_assoc, List.drop_left, dispatched_append, dispatched_handled]
      simp [dispatched]
    | cons q left =>
      show dispatched (List.drop os.log.length (os.log ++ _ ++ [_])) = _
      rw [List.append_assoc, List.drop_left, dispatched_append, dispatched_handled]
      simp [dispatched]
  · constructor
    · intro h
      refine ⟨PumpMessages_true_queue host self os h, fun q hq hmem => ?_⟩
      have := (PumpMessages_false_iff host self os).2 ⟨q, hq, hmem⟩
      rw [h] at this
      exact absurd this (by decide)
    · rintro ⟨-, h⟩
      by_contra hne
      have hf : (self.PumpMessages host os).1 = false := by simpa using hne
      obtain ⟨q, hq, hmem⟩ := (PumpMessages_false_iff host self os).1 hf
      exact h q hq hmem
  · obtain ⟨queue, log, arrivals⟩ := os
    rintro rfl
    simp [PumpMessages_nil, pumpCalls_nil, dispatched]

/-- Witness for C1: with `[paintMsg, WM_QUIT, sizeMsg]` pending the call handles `paintMsg`,
retrieves the pending `WM_QUIT`, returns `false` and leaves `sizeMsg`; with
`[paintMsg, destroyMsg, sizeMsg]` pending it handles all three, retrieves the `WM_QUIT` that
`WndProc` posted, and returns `false`; with `[paintMsg]` pending it handles it and returns
`true`; on an empty queue it returns `true` after one retrieval attempt. -/
theorem PumpMessages_result_witness :
    (Win32Window.mk 1 7).PumpMessages demoHost ⟨[paintMsg, quitMessage 0, sizeMsg], [], []⟩
        = (false, ⟨[sizeMsg],
            [.PeekMessageW (some paintMsg), .TranslateMessage paintMsg,
              .DispatchMessageW paintMsg, .DefWindowProcW 7 15 0 0,
              .PeekMessageW (some (quitMessage 0))], []⟩)
      ∧ (Win32Window.mk 1 7).PumpMessages demoHost ⟨[paintMsg, destroyMsg, sizeMsg], [], []⟩
        = (false, ⟨[],
            [.PeekMessageW (some paintMsg), .TranslateMessage paintMsg,
              .DispatchMessageW paintMsg, .DefWindowProcW 7 15 0 0,
              .PeekMessageW (some destroyMsg), .TranslateMessage destroyMsg,
              .DispatchMessageW destroyMsg, .PostQuitMessage 0,
              .PeekMessageW (some sizeMsg), .TranslateMessage sizeMsg,
              .DispatchMessageW sizeMsg, .DefWindowProcW 7 5 0 0,
              .PeekMessageW (some (quitMessage 0))], []⟩)
      ∧ (Win32Window.mk 1 7).PumpMessages demoHost ⟨[paintMsg], [], []⟩
        = (true, ⟨[],
            [.PeekMessageW (some paintMsg), .TranslateMessage paintMsg,
              .DispatchMessageW paintMsg, .DefWindowProcW 7 15 0 0, .PeekMessageW none], []⟩)
      ∧ ((Win32Window.mk 1 7).PumpMessages demoHost ⟨[], [], []⟩).1 = true
      ∧ (Win32Window.mk 1 7).pumpCalls demoHost ⟨[], [], []⟩ = [.PeekMessageW none] :=
  ⟨(PumpMessages_result demoHost (Win32Window.mk 1 7)
      ⟨[paintMsg, quitMessage 0, sizeMsg], [], []⟩).1,
    (PumpMessages_result demoHost (Win32Window.mk 1 7)
      ⟨[paintMsg, destroyMsg, sizeMsg], [], []⟩).1,
    (PumpMessages_result demoHost (Win32Window.mk 1 7) ⟨[paintMsg], [], []⟩).1,
    ((PumpMessages_result demoHost (Win32Window.mk 1 7) ⟨[], [], []⟩).2.2.2.2.2.2.2 rfl).1,
    ((PumpMessages_result demoHost (Win32Window.mk 1 7) ⟨[], [], []⟩).2.2.2.2.2.2.2 rfl).2.1⟩

/-- C2: on a queue `pre ++ [q] ++ post` where `q` is a `WM_QUIT` message and `pre` holds neither
`WM_QUIT` nor `WM_DESTROY`, one `PumpMessages` call retrieves, translates and then dispatches
each message of `pre` once and in order, retrieves `q`, returns `false`, and leaves `post` in
the queue undispatched. -/
theorem PumpMessages_drain_then_stop (host : Host) (self : Win32Window) (pre post : List MSG)
    (q : MSG) (log : List OsCall) (arrivals : List (List MSG)) (hq : q.message = WM_QUIT)
    (hpre : ∀ m ∈ pre, m.message ≠ WM_QUIT ∧ m.message ≠ WM_DESTROY) :
    self.PumpMessages host ⟨pre ++ [q] ++ post, log, arrivals⟩
        = (false, ⟨post, log ++ pre.flatMap (fun m =>
            [.PeekMessageW (some m), .TranslateMessage m, .DispatchMessageW m,
              .DefWindowProcW m.hwnd m.message m.wParam m.lParam])
            ++ [.PeekMessageW (some q)], arrivals⟩)
      ∧ dispatched (self.pumpCalls host ⟨pre ++ [q] ++ post, log, arrivals⟩) = pre := by
  have main : ∀ (pre : List MSG) (log : List OsCall),
      (∀ m ∈ pre, m.message ≠ WM_QUIT ∧ m.message ≠ WM_DESTROY) →
      self.PumpMessages host ⟨pre ++ [q] ++ post, log, arrivals⟩
        = (false, ⟨post, log ++ pre.flatMap forwardedCalls ++ [.PeekMessageW (some q)],
            arrivals⟩) := by
    intro pre
    induction pre with
    | nil =>
      intro log _
      simp [PumpMessages_quit _ _ _ _ _ _ hq]
    | cons m ms ih =>
      intro log hms
      have hm := hms m (List.mem_cons_self _ _)
      have hrest : ∀ x ∈ ms, x.message ≠ WM_QUIT ∧ x.message ≠ WM_DESTROY :=
        fun x hx => hms x (List.mem_cons_of_mem _ hx)
      have := ih (log ++ forwardedCalls m) hrest
      simp only [List.cons_append, List.append_assoc, List.flatMap_cons] at this ⊢
      rw [PumpMessages_forward _ _ _ _ _ _ hm.1 hm.2, this]
  have hfinal := main pre log hpre
  refine ⟨hfinal, ?_⟩
  have hd : dispatched (pre.flatMap forwardedCalls) = pre := by
    clear hfinal hpre main
    induction pre with
    | nil => rfl
    | cons m ms ih => rw [List.flatMap_cons, dispatched_append, ih]; rfl
  rw [pumpCalls, hfinal]
  show dispatched (List.drop log.length (log ++ pre.flatMap forwardedCalls ++ [_])) = pre
  rw [List.append_assoc, List.drop_left, dispatched_append, hd]
  simp [dispatched]

/-- Witness for C2: the queue `[paintMsg, sizeMsg, WM_QUIT, destroyMsg]`. -/
theorem PumpMessages_drain_then_stop_witness :
    (Win32Window.mk 1 7).PumpMessages demoHost
        ⟨[paintMsg, sizeMsg] ++ [quitMessage 0] ++ [destroyMsg], [], []⟩
        = (false, ⟨[destroyMsg], [] ++ [paintMsg, sizeMsg].flatMap (fun m =>
            [.PeekMessageW (some m), .TranslateMessage m, .DispatchMessageW m,
              .DefWindowProcW m.hwnd m.message m.wParam m.lParam])
            ++ [.PeekMessageW (some (quitMessage 0))], []⟩)
      ∧ dispatched ((Win32Window.mk 1 7).pumpCalls demoHost
          ⟨[paintMsg, sizeMsg] ++ [quitMessage 0] ++ [destroyMsg], [], []⟩)
        = [paintMsg, sizeMsg] :=
  PumpMessages_drain_then_stop demoHost (Win32Window.mk 1 7) [paintMsg, sizeMsg] [destroyMsg]
    (quitMessage 0) [] [] (by decide) (by decide)

/-- C3, counterexample: with only `WM_DESTROY` pending, the call that dispatches it to
`WndProc` itself returns `false` (not `true`), and the next call returns `true` (not `false`);
and with only a `WM_QUIT` pending a call returns `false` although no `WM_DESTROY` was ever
dispatched. -/
theorem pump_termination_law_counterexample :
    dispatched ((Win32Window.mk 1 7).pumpCalls demoHost ⟨[destroyMsg], [], []⟩) = [destroyMsg]
      ∧ ((Win32Window.mk 1 7).PumpMessages demoHost ⟨[destroyMsg], [], []⟩).1 = false
      ∧ ((Win32Window.mk 1 7).PumpMessages demoHost
          ((Win32Window.mk 1 7).PumpMessages demoHost ⟨[destroyMsg], [], []⟩).2).1 = true
      ∧ dispatched ((Win32Window.mk 1 7).pumpCalls demoHost ⟨[quitMessage 0], [], []⟩) = []
      ∧ ((Win32Window.mk 1 7).PumpMessages demoHost ⟨[quitMessage 0], [], []⟩).1 = false := by
  have h1 : (Win32Window.mk 1 7).PumpMessages demoHost ⟨[destroyMsg], [], []⟩
      = (false, ⟨[], destroyCalls destroyMsg ++ [.PeekMessageW (some (quitMessage 0))], []⟩) := by
    rw [PumpMessages_destroy _ _ _ _ _ _ (by decide)]
    exact PumpMessages_quit _ _ _ _ _ _ (by decide)
  have h2 : (Win32Window.mk 1 7).PumpMessages demoHost ⟨[quitMessage 0], [], []⟩
      = (false, ⟨[], [.PeekMessageW (some (quitMessage 0))], []⟩) :=
    PumpMessages_quit _ _ _ _ _ _ (by decide)
  refine ⟨?_, ?_, ?_, ?_, ?_⟩
  · rw [pumpCalls, h1]; rfl
  · rw [h1]
  · rw [h1, PumpMessages_nil]
  · rw [pumpCalls, h2]; rfl
  · rw [h2]

/-- C3, amended: a `PumpMessages` call returns `false` if and only if a `WM_QUIT` message is
already pending when the call starts or a `WM_DESTROY` message is dispatched to `WndProc`
during that same call; so the call that dispatches `WM_DESTROY` itself returns `false`, and a
call returns `true` exactly when neither happens. -/
theorem pump_termination_law (host : Host) (self : Win32Window) (os : OS) :
    ((self.PumpMessages host os).1 = false
      ↔ (∃ m ∈ os.queue, m.message = WM_QUIT)
        ∨ (∃ m ∈ dispatched (self.pumpCalls host os), m.message = WM_DESTROY))
    ∧ ((self.PumpMessages host os).1 = true
      ↔ (∀ m ∈ os.queue, m.message ≠ WM_QUIT)
        ∧ (∀ m ∈ dispatched (self.pumpCalls host os), m.message ≠ WM_DESTROY)) := by
  have key : (self.PumpMessages host os).1 = false
      ↔ (∃ m ∈ os.queue, m.message = WM_QUIT)
        ∨ (∃ m ∈ dispatched (self.pumpCalls host os), m.message = WM_DESTROY) := by
    induction os using pump_induction with
    | hnil log arrivals => simp [PumpMessages_nil, pumpCalls_nil, dispatched]
    | hquit m rest log arrivals hm =>
      simp [PumpMessages_quit _ _ _ _ _ _ hm, hm]
    | hdestroy m rest log arrivals hm ih =>
      rw [PumpMessages_destroy _ _ _ _ _ _ hm, pumpCalls_destroy _ _ _ _ _ _ hm]
      have hfalse : (self.PumpMessages host
          ⟨rest ++ [quitMessage 0], log ++ destroyCalls m, arrivals⟩).1 = false :=
        ih.2 (Or.inl ⟨quitMessage 0, by simp, rfl⟩)
      simp only [hfalse, true_iff]
      exact Or.inr ⟨m, by simp [dispatched_append, destroyCalls, dispatched], hm⟩
    | hforward m rest log arrivals hq hd ih =>
      rw [PumpMessages_forward _ _ _ _ _ _ hq hd, pumpCalls_forward _ _ _ _ _ _ hq hd, ih]
      have hdm : dispatched (forwardedCalls m) = [m] := rfl
      simp [dispatched_append, hdm, hq, hd]
  refine ⟨key, ?_⟩
  rw [← Bool.not_eq_false, key]
  simp only [not_or, not_exists, not_and, ne_eq]

/-- C9: a `PumpMessages` call always returns, after at most as many `PeekMessageW` retrievals as
there were pending messages plus `PostQuitMessage` calls made during the call plus one; every
message it retrieves was pending at the start or is the termination message posted by `WndProc`
during the call, and the call makes no `Sleep` or other waiting call. -/
theorem PumpMessages_retrievals_bounded (host : Host) (self : Win32Window) (os : OS) :
    (self.pumpCalls host os).countP isPeek
        ≤ os.queue.length + (self.pumpCalls host os).countP isPostQuit + 1
      ∧ (∀ m : MSG, OsCall.PeekMessageW (some m) ∈ self.pumpCalls host os →
          m ∈ os.queue ∨ m = quitMessage 0)
      ∧ (∀ c ∈ self.pumpCalls host os, isSleep c = false) := by
  refine ⟨?_, ?_, pumpCalls_no_sleep host self os⟩
  · induction os using pump_induction with
    | hnil log arrivals => simp [pumpCalls_nil, isPeek, isPostQuit]
    | hquit m rest log arrivals hm =>
      simp [pumpCalls_quit _ _ _ _ _ _ hm, isPeek, isPostQuit]
    | hdestroy m rest log arrivals hm ih =>
      have h1 : (destroyCalls m).countP isPeek = 1 := rfl
      have h2 : (destroyCalls m).countP isPostQuit = 1 := rfl
      rw [pumpCalls_destroy _ _ _ _ _ _ hm, List.countP_append, List.countP_append, h1, h2]
      simp only [List.length_append, List.length_cons, List.length_nil] at ih ⊢
      omega
    | hforward m rest log arrivals hq hd ih =>
      have h1 : (forwardedCalls m).countP isPeek = 1 := rfl
      have h2 : (forwardedCalls m).countP isPostQuit = 0 := rfl
      rw [pumpCalls_forward _ _ _ _ _ _ hq hd, List.countP_append, List.countP_append, h1, h2]
      simp only [List.length_cons] at ih ⊢
      omega
  · induction os using pump_induction with
    | hnil log arrivals => simp [pumpCalls_nil]
    | hquit m rest log arrivals hm =>
      intro x hx
      simp only [pumpCalls_quit _ _ _ _ _ _ hm, List.mem_singleton, OsCall.PeekMessageW.injEq,
        Option.some.injEq] at hx
      subst hx
      exact Or.inl (List.mem_cons_self _ _)
    | hdestroy m rest log arrivals hm ih =>
      rw [pumpCalls_destroy _ _ _ _ _ _ hm]
      intro x hx
      rcases List.mem_append.1 hx with h | h
      · simp only [destroyCalls, List.mem_cons, OsCall.PeekMessageW.injEq, Option.some.injEq,
          List.mem_singleton, reduceCtorEq, or_false, List.not_mem_nil] at h
        subst h
        exact Or.inl (List.mem_cons_self _ _)
      · rcases ih x h with h | h
        · rcases List.mem_append.1 h with h | h
          · exact Or.inl (List.mem_cons_of_mem _ h)
          · exact Or.inr (List.mem_singleton.1 h)
        · exact Or.inr h
    | hforward m rest log arrivals hq hd ih =>
      rw [pumpCalls_forward _ _ _ _ _ _ hq hd]
      intro x hx
      rcases List.mem_append.1 hx with h | h
      · simp only [forwardedCalls, List.mem_cons, OsCall.PeekMessageW.injEq, Option.some.injEq,
          List.mem_singleton, reduceCtorEq, or_false, List.not_mem_nil] at h
        subst h
        exact Or.inl (List.mem_cons_self _ _)
      · rcases ih x h with h | h
        · exact Or.inl (List.mem_cons_of_mem _ h)
        · exact Or.inr h

/-- C10: on `WM_DESTROY`, `WndProc` calls `PostQuitMessage(0)` once, which appends one `WM_QUIT`
message with exit code 0 to the queue, returns 0 and does not call `DefWindowProcW`; on every
other message id it leaves the queue alone, calls `DefWindowProcW` once with the same four
arguments and returns its result. -/
theorem WndProc_dispatch (host : Host) (hwnd : HWND) (msg : UINT) (wparam : WPARAM)
    (lparam : LPARAM) (os : OS) :
    WndProc host hwnd msg wparam lparam os
      = (if msg = WM_DESTROY then
          (0, ⟨os.queue ++ [⟨nullptr, WM_QUIT, 0, 0⟩], os.log ++ [.PostQuitMessage 0], os.arrivals⟩)
        else
          (host.defaultResult hwnd msg wparam lparam,
            ⟨os.queue, os.log ++ [.DefWindowProcW hwnd msg wparam lparam], os.arrivals⟩)) := by
  by_cases h : msg = WM_DESTROY
  · simp [WndProc, h, PostQuitMessage, quitMessage]
  · simp [WndProc, h, DefWindowProcW, OS.record]

/-- The constructor in closed form: the window it builds and the five calls it logs. -/
theorem construct_eq (host : Host) (hInstance : HINSTANCE) (width height : Int) (title : String)
    (os : OS) :
    construct host hInstance width height title os
      = (⟨hInstance, createdHandle host hInstance width height title⟩,
          ⟨os.queue, os.log ++ constructCalls host hInstance width height title,
            os.arrivals⟩) := by
  simp [construct, LoadCursor, RegisterClassW, AdjustWindowRect, CreateWindowExW, ShowWindow,
    OS.record, createdHandle, registeredClass, constructCalls]

/-- C6: the destructor of any window makes exactly one call, `DestroyWindow` on the stored
handle, when that handle is non-null, and no call at all when it is null; the stored handle of a
constructed window is the one `CreateWindowExW` returned to the constructor; so at most one
`DestroyWindow` is requested by a destructor run. -/
theorem destruct_calls (host : Host) (hInstance : HINSTANCE) (width height : Int)
    (title : String) (os0 : OS) (self : Win32Window) (os : OS) :
    self.destruct os
        = (if self.hwnd ≠ nullptr then
            ⟨os.queue, os.log ++ [.DestroyWindow self.hwnd], os.arrivals⟩
          else os)
      ∧ (construct host hInstance width height title os0).1.hwnd
          = createdHandle host hInstance width height title
      ∧ ((self.destruct os).log.drop os.log.length).countP
          (fun c => c.name = "DestroyWindow") ≤ 1 := by
  refine ⟨?_, ?_, ?_⟩
  · by_cases h : self.m_hwnd = nullptr <;> simp [destruct, hwnd, h, DestroyWindow, OS.record]
  · rw [construct_eq]; rfl
  · by_cases h : self.m_hwnd = nullptr <;>
      simp [destruct, h, DestroyWindow, OS.record, OsCall.name]

/-- C7: if `CreateWindowExW` returns a non-null handle `h` to the constructor, then afterwards
`hwnd()` is `h`, hence non-null, and the last call the constructor made is
`ShowWindow(h, SW_SHOW)`. -/
theorem construct_success (host : Host) (hInstance : HINSTANCE) (width height : Int)
    (title : String) (os : OS) (h : HWND)
    (hcreated : createdHandle host hInstance width height title = h) (hh : h ≠ nullptr) :
    (construct host hInstance width height title os).1.hwnd = h
      ∧ (construct host hInstance width height title os).1.hwnd ≠ nullptr
      ∧ (construct host hInstance width height title os).2.log.getLast?
          = some (.ShowWindow h SW_SHOW) := by
  subst hcreated
  rw [construct_eq]
  refine ⟨rfl, hh, ?_⟩
  simp [constructCalls, List.getLast?_append]

/-- Witness for C7: `demoHost` creates window 7 for an 800x600 request. -/
theorem construct_success_witness :
    (construct demoHost 1 800 600 "Hello, Windows" ⟨[], [], []⟩).1.hwnd = 7
      ∧ (construct demoHost 1 800 600 "Hello, Windows" ⟨[], [], []⟩).1.hwnd ≠ nullptr
      ∧ (construct demoHost 1 800 600 "Hello, Windows" ⟨[], [], []⟩).2.log.getLast?
          = some (.ShowWindow 7 SW_SHOW) :=
  construct_success demoHost 1 800 600 "Hello, Windows" ⟨[], [], []⟩ 7 rfl (by decide)

/-- C8: whatever class registration and window creation return (failure included), the
constructor completes and makes the same calls in the same order: cursor lookup, class
registration, rectangle adjustment, window creation, and `ShowWindow` on the handle creation
returned; `hwnd()` is that handle, unchecked, so it is null when creation failed. -/
theorem construct_absorbs_failure (host : Host) (hInstance : HINSTANCE) (width height : Int)
    (title : String) (os : OS) :
    (construct host hInstance width height title os).1.hwnd
        = createdHandle host hInstance width height title
      ∧ (createdHandle host hInstance width height title = nullptr →
          (construct host hInstance width height title os).1.hwnd = nullptr)
      ∧ (construct host hInstance width height title os).2.queue = os.queue
      ∧ (construct host hInstance width height title os).2.log
          = os.log ++ constructCalls host hInstance width height title
      ∧ (constructCalls host hInstance width height title).map OsCall.name
          = ["LoadCursorW", "RegisterClassW", "AdjustWindowRect", "CreateWindowExW",
              "ShowWindow"]
      ∧ (constructCalls host hInstance width height title).getLast?
          = some (.ShowWindow (construct host hInstance width height title os).1.hwnd
              SW_SHOW) := by
  rw [construct_eq]
  exact ⟨rfl, fun h => h, rfl, rfl, rfl, rfl⟩

/-- Witness for C8: on `failingHost` registration returns atom 0 and creation returns null;
the constructor still returns a window, with a null handle, after the same five calls. -/
theorem construct_absorbs_failure_witness :
    failingHost.classAtom (registeredClass failingHost 1) = 0
      ∧ createdHandle failingHost 1 800 600 "Hello, Windows" = nullptr
      ∧ (construct failingHost 1 800 600 "Hello, Windows" ⟨[], [], []⟩).1.hwnd = nullptr
      ∧ (construct failingHost 1 800 600 "Hello, Windows" ⟨[], [], []⟩).2.log
          = [] ++ constructCalls failingHost 1 800 600 "Hello, Windows" :=
  ⟨rfl, rfl,
    (construct_absorbs_failure failingHost 1 800 600 "Hello, Windows" ⟨[], [], []⟩).2.1 rfl,
    (construct_absorbs_failure failingHost 1 800 600 "Hello, Windows" ⟨[], [], []⟩).2.2.2.1⟩

end Win32Window

theorem entryState_eq (host : Host) (os : OS) :
    entryState host os
      = (⟨host.moduleHandle nullptr,
            createdHandle host (host.moduleHandle nullptr) 800 600 "Hello, Windows"⟩,
          ⟨os.queue,
            os.log ++ (.GetModuleHandleW nullptr
              :: constructCalls host (host.moduleHandle nullptr) 800 600 "Hello, Windows"),
            os.arrivals⟩) := by
  simp [entryState, Win32Window.construct_eq, GetModuleHandleW, OS.record]

theorem main_eq (host : Host) (fuel : Nat) (os : OS) :
    main host fuel os
      = (main.loop host (entryState host os).1 fuel (entryState host os).2).map
          (fun s => (0, (entryState host os).1.destruct s)) := by
  unfold main entryState
  simp only []
  cases main.loop host
    (Win32Window.construct host (GetModuleHandleW host nullptr os).1 800 600 "Hello, Windows"
      (GetModuleHandleW host nullptr os).2).1 fuel
    (Win32Window.construct host (GetModuleHandleW host nullptr os).1 800 600 "Hello, Windows"
      (GetModuleHandleW host nullptr os).2).2 <;> rfl

theorem destruct_log (window : Win32Window) (os : OS) :
    (window.destruct os).log
      = os.log ++ (if window.hwnd ≠ nullptr then [.DestroyWindow window.hwnd] else []) := by
  by_cases h : window.m_hwnd = nullptr <;>
    simp [Win32Window.destruct, Win32Window.hwnd, h, DestroyWindow, OS.record]

/-- C4: `main` builds its window with 800, 600 and the title "Hello, Windows"; when the queue
then holds `[A, B, Q]` with `A`, `B` not `WM_QUIT` and `Q` a `WM_QUIT` message, the first
`PumpMessages` call retrieves, translates and dispatches `A`, then `B`, then retrieves `Q`
(removing it from the queue) as its last call and returns `false`; `main` returns 0 after
destroying the window, having made no `Sleep` call. -/
theorem main_scenario (host : Host) (fuel : Nat) (A B Q : MSG) (log : List OsCall)
    (arrivals : List (List MSG)) (window : Win32Window) (os1 : OS)
    (hentry : entryState host ⟨[A, B, Q], log, arrivals⟩ = (window, os1))
    (hA : A.message ≠ WM_QUIT) (hB : B.message ≠ WM_QUIT) (hQ : Q.message = WM_QUIT) :
    window = ⟨host.moduleHandle nullptr,
        createdHandle host (host.moduleHandle nullptr) 800 600 "Hello, Windows"⟩
      ∧ os1.queue = [A, B, Q]
      ∧ (window.PumpMessages host os1).1 = false
      ∧ dispatched (window.pumpCalls host os1) = [A, B]
      ∧ main host (fuel + 1) ⟨[A, B, Q], log, arrivals⟩
          = some (0, window.destruct (window.PumpMessages host os1).2)
      ∧ (window.destruct (window.PumpMessages host os1).2).log
          = log ++ (.GetModuleHandleW nullptr
              :: constructCalls host (host.moduleHandle nullptr) 800 600 "Hello, Windows")
            ++ window.pumpCalls host os1
            ++ (if window.hwnd ≠ nullptr then [.DestroyWindow window.hwnd] else [])
      ∧ (∀ c ∈ (window.destruct (window.PumpMessages host os1).2).log.drop log.length,
          isSleep c = false)
      ∧ window.pumpCalls host os1
          = handledCalls A ++ handledCalls B ++ [.PeekMessageW (some Q)]
      ∧ (window.pumpCalls host os1).getLast? = some (.PeekMessageW (some Q))
      ∧ (window.PumpMessages host os1).2.queue
          = List.replicate ([A, B].countP (fun m => decide (m.message = WM_DESTROY)))
              (quitMessage 0) := by
  have hes := entryState_eq host ⟨[A, B, Q], log, arrivals⟩
  rw [hentry] at hes
  obtain ⟨hw, hos⟩ := Prod.mk.inj hes
  have hos1 : os1 = ⟨[A, B] ++ [Q], os1.log, arrivals⟩ := by rw [hos]; rfl
  have hpm : window.PumpMessages host os1
      = (false, ⟨List.replicate ([A, B].countP (fun m => decide (m.message = WM_DESTROY)))
            (quitMessage 0),
          os1.log ++ (handledCalls A ++ handledCalls B ++ [.PeekMessageW (some Q)]),
          arrivals⟩) := by
    rw [hos1, Win32Window.pump_drain host window arrivals [A, B] [Q] os1.log (by simp [hA, hB])]
    simp only [List.singleton_append]
    rw [Win32Window.PumpMessages_quit _ _ _ _ _ _ hQ]
    simp [List.flatMap_cons]
  have hcalls : window.pumpCalls host os1
      = handledCalls A ++ handledCalls B ++ [.PeekMessageW (some Q)] := by
    rw [Win32Window.pumpCalls, hpm]
    exact List.drop_left _ _
  have hfalse : (window.PumpMessages host os1).1 = false := by rw [hpm]
  have hloop : main.loop host window (fuel + 1) os1 = some (window.PumpMessages host os1).2 := by
    rw [main.loop]
    split
    · next os2 h => rw [h]
    · next os2 h => rw [h] at hfalse; cases hfalse
  have hmain := main_eq host (fuel + 1) ⟨[A, B, Q], log, arrivals⟩
  rw [hentry] at hmain
  simp only [hloop, Option.map_some'] at hmain
  have hdisp : dispatched (window.pumpCalls host os1) = [A, B] := by
    have h := Win32Window.dispatched_handled [A, B]
    simp only [List.flatMap_cons, List.flatMap_nil, List.append_nil] at h
    rw [hcalls, Win32Window.dispatched_append, h]
    rfl
  have hlog : (window.destruct (window.PumpMessages host os1).2).log
      = log ++ (.GetModuleHandleW nullptr
          :: constructCalls host (host.moduleHandle nullptr) 800 600 "Hello, Windows")
        ++ window.pumpCalls host os1
        ++ (if window.hwnd ≠ nullptr then [.DestroyWindow window.hwnd] else []) := by
    rw [destruct_log, Win32Window.PumpMessages_log]
    congr 2
    rw [hos]
  refine ⟨hw, by rw [hos], hfalse, hdisp, hmain, hlog, ?_, hcalls, ?_, by rw [hpm]⟩
  · intro c hc
    rw [hlog, List.append_assoc, List.append_assoc, List.drop_left] at hc
    rcases List.mem_append.1 hc with h | h
    · simp only [constructCalls, List.mem_cons, List.not_mem_nil, or_false] at h
      rcases h with rfl | rfl | rfl | rfl | rfl | rfl <;> rfl
    · rcases List.mem_append.1 h with h | h
      · exact Win32Window.pumpCalls_no_sleep host window os1 c h
      · split at h
        · rw [List.mem_singleton] at h
          subst h
          rfl
        · cases h
  · rw [hcalls]
    simp [List.getLast?_append]

/-- Witness for C4: on `demoHost` with `[paintMsg, sizeMsg, WM_QUIT]` pending and two loop
turns allowed, `main` returns 0; its first `PumpMessages` call handles `paintMsg` and
`sizeMsg`, then retrieves the `WM_QUIT` and leaves the queue empty. -/
theorem main_scenario_witness :
    main demoHost 2 ⟨[paintMsg, sizeMsg, quitMessage 0], [], []⟩
        = some (0, (Win32Window.mk 1 7).destruct ((Win32Window.mk 1 7).PumpMessages demoHost
            ⟨[paintMsg, sizeMsg, quitMessage 0],
              [] ++ (.GetModuleHandleW nullptr
                :: constructCalls demoHost 1 800 600 "Hello, Windows"), []⟩).2)
      ∧ (Win32Window.mk 1 7).pumpCalls demoHost
          ⟨[paintMsg, sizeMsg, quitMessage 0],
            [] ++ (.GetModuleHandleW nullptr
              :: constructCalls demoHost 1 800 600 "Hello, Windows"), []⟩
        = [.PeekMessageW (some paintMsg), .TranslateMessage paintMsg,
            .DispatchMessageW paintMsg, .DefWindowProcW 7 15 0 0,
            .PeekMessageW (some sizeMsg), .TranslateMessage sizeMsg,
            .DispatchMessageW sizeMsg, .DefWindowProcW 7 5 0 0,
            .PeekMessageW (some (quitMessage 0))]
      ∧ ((Win32Window.mk 1 7).PumpMessages demoHost
          ⟨[paintMsg, sizeMsg, quitMessage 0],
            [] ++ (.GetModuleHandleW nullptr
              :: constructCalls demoHost 1 800 600 "Hello, Windows"), []⟩).2.queue = [] :=
  ⟨(main_scenario demoHost 1 paintMsg sizeMsg (quitMessage 0) [] [] (Win32Window.mk 1 7)
      ⟨[paintMsg, sizeMsg, quitMessage 0],
        [] ++ (.GetModuleHandleW nullptr :: constructCalls demoHost 1 800 600 "Hello, Windows"),
        []⟩ (entryState_eq demoHost _) (by decide) (by decide) (by decide)).2.2.2.2.1,
    (main_scenario demoHost 1 paintMsg sizeMsg (quitMessage 0) [] [] (Win32Window.mk 1 7)
      ⟨[paintMsg, sizeMsg, quitMessage 0],
        [] ++ (.GetModuleHandleW nullptr :: constructCalls demoHost 1 800 600 "Hello, Windows"),
        []⟩ (entryState_eq demoHost _) (by decide) (by decide) (by decide)).2.2.2.2.2.2.2.1,
    (main_scenario demoHost 1 paintMsg sizeMsg (quitMessage 0) [] [] (Win32Window.mk 1 7)
      ⟨[paintMsg, sizeMsg, quitMessage 0],
        [] ++ (.GetModuleHandleW nullptr :: constructCalls demoHost 1 800 600 "Hello, Windows"),
        []⟩ (entryState_eq demoHost _) (by decide) (by decide) (by decide)).2.2.2.2.2.2.2.2.2⟩

end SimFoundation
